import Mathlib

/-!
Verification of the adaptive logging pipeline of the `autodebugger` repository:
the rotating file writer (`src/rotating_file_logger.rs`) and the verbosity
governor / event formatter (`src/tracing_subscriber.rs`).

The Rust code is shallowly embedded: byte buffers and file contents are
`List Nat`, paths and strings are `List Char`, and the mutable writer is a
record threaded through explicit state-passing functions.  Machine integers
(`u64` sizes, `usize` counters) are modelled as `Nat`; the quantities involved
(file sizes, event counts) stay far below `2 ^ 64`, so wraparound never
matters for the properties proved here and no `% 2 ^ 64` is inserted.
Filesystem errors (`rename`/`remove_file`/`write` failing) are out of scope:
the operations are modelled on their success path, matching the properties
under scrutiny which all describe success-path behaviour.
-/

namespace Autodebugger

/-- Severity levels of the `tracing` crate (ERROR is most urgent). -/
inductive Level where
  | error
  | warn
  | info
  | debug
  | trace
deriving DecidableEq, Repr

/-- Structure `RotatingFileConfig` from `src/config.rs` (serde defaults below). -/
structure RotatingFileConfig where
  log_directory : List Char
  filename : List Char
  max_files : Nat
  max_size_mb : Nat
  console_output : Bool
  truncate_on_limit : Bool
deriving Repr

/-- The serde/`Default` values from `src/config.rs`: directory `"logs"`,
filename `"app.log"`, `max_files = 10`, `max_size_mb = 5`,
`console_output = true`, `truncate_on_limit = true`. -/
def RotatingFileConfig.default : RotatingFileConfig :=
  { log_directory := "logs".toList
    filename := "app.log".toList
    max_files := 10
    max_size_mb := 5
    console_output := true
    truncate_on_limit := true }

/-- Boolean prefix test on `List Char`, mirroring Rust slice prefix matching. -/
def isPrefixList : List Char → List Char → Bool
  | [], _ => true
  | _ :: _, [] => false
  | a :: as, b :: bs => a == b && isPrefixList as bs

/-- One step of `str::trim_end_matches(".log")`, working on the reversed
string: repeatedly strip the (reversed) suffix `".log"`; the fuel argument is
bounded by the string length, which strictly decreases at each strip. -/
def trimRevLoop : Nat → List Char → List Char
  | 0, r => r
  | n + 1, r =>
    if isPrefixList "gol.".toList r then trimRevLoop n (r.drop 4) else r

/-- Models `config.filename.trim_end_matches(".log")` from `RotatingWriter::new`:
removes every trailing repetition of `".log"`. -/
def trimEndLog (s : List Char) : List Char :=
  (trimRevLoop s.length s.reverse).reverse

/-- The active-file path built in `RotatingWriter::new`:
`{log_directory}/{base}_{timestamp}.log` where `base` is the filename with
trailing `".log"` stripped.  The timestamp string
(`chrono::Local::now().format("%Y%m%d_%H%M%S")`, second granularity) is a
parameter of the model since it comes from the wall clock. -/
def logPathOf (cfg : RotatingFileConfig) (ts : List Char) : List Char :=
  cfg.log_directory ++ '/' :: (trimEndLog cfg.filename ++ '_' :: ts ++ ".log".toList)

/-- State of `RotatingWriter` (`src/rotating_file_logger.rs`), together with
the slice of the filesystem it owns: the active file's contents and the
numbered backups `log_path.log.{i}` (`backups i = none` means no file with
index `i` exists).  `current_size` mirrors the `u64` byte counter. -/
structure WriterState where
  config : RotatingFileConfig
  active : List Nat
  current_size : Nat
  log_path : List Char
  backups : Nat → Option (List Nat)

/-- Function `RotatingWriter::new`: builds the timestamped path and opens the file with
`.create(true).write(true).truncate(true)`, so the active file starts empty and
`current_size = metadata().len() = 0`.  A fresh timestamped path has no
numbered backups.  (The `update_latest_symlink` call only maintains the
best-effort "latest" pointer, which is outside the claims modelled here.) -/
def newWriter (cfg : RotatingFileConfig) (ts : List Char) : WriterState :=
  { config := cfg
    active := []
    current_size := 0
    log_path := logPathOf cfg ts
    backups := fun _ => none }

/-- Predicate `RotatingWriter::should_rotate`: `current_size >= max_size_mb * 1024 * 1024`. -/
def shouldRotate (st : WriterState) : Bool :=
  decide (st.config.max_size_mb * 1024 * 1024 ≤ st.current_size)

/-- One iteration of the rotation loop body for index `i`
(`for i in (1..max_files).rev()` in `RotatingWriter::rotate`): if `.{i}`
exists, delete it when `i + 1 >= max_files`, otherwise rename it to `.{i+1}`. -/
def applyStep (maxFiles : Nat) (b : Nat → Option (List Nat)) (i : Nat) :
    Nat → Option (List Nat) :=
  match b i with
  | none => b
  | some contents =>
    if maxFiles ≤ i + 1 then
      fun j => if j = i then none else b j
    else
      fun j => if j = i + 1 then some contents else if j = i then none else b j

/-- The rotation loop `for i in (1..max_files).rev()`: processes indices
`n, n-1, ..., 1` (highest first), with `n = max_files - 1` at the call site. -/
def rotateLoop (maxFiles : Nat) : Nat → (Nat → Option (List Nat)) →
    (Nat → Option (List Nat))
  | 0, b => b
  | n + 1, b => rotateLoop maxFiles n (applyStep maxFiles b (n + 1))

/-- Function `RotatingWriter::rotate`: runs the rename/delete chain over the numbered
backups, renames the active file to `.1` (overwriting whatever was there),
creates a fresh empty active file at the same path, and resets
`current_size` to zero.  (`flush` and the symlink refresh have no effect on
the modelled state.) -/
def rotate (st : WriterState) : WriterState :=
  let chained := rotateLoop st.config.max_files (st.config.max_files - 1) st.backups
  { st with
    backups := fun j => if j = 1 then some st.active else chained j
    active := []
    current_size := 0 }

/-- The pass-through portion of `<RotatingWriter as Write>::write`:
`let written = self.current_file.write(buf)?; self.current_size += written;
Ok(written)`.  The OS may persist fewer bytes than requested, so the number of
bytes the OS accepts is the parameter `k`; the handle persists
`written = min k buf.length` bytes (all of `buf` when `k = buf.length`). -/
def writeOs (st : WriterState) (buf : List Nat) (k : Nat) : WriterState × Nat :=
  let written := min k buf.length
  ({ st with
      active := st.active ++ buf.take written
      current_size := st.current_size + written },
   written)

/-- Function `<RotatingWriter as Write>::write`: if the size limit is reached, either
pretend success without writing (truncate mode: `return Ok(buf.len())`) or
rotate and fall through; otherwise pass the buffer to the file handle. -/
def write (st : WriterState) (buf : List Nat) (k : Nat) : WriterState × Nat :=
  if shouldRotate st then
    if st.config.truncate_on_limit then
      (st, buf.length)
    else
      writeOs (rotate st) buf k
  else
    writeOs st buf k

/-- A sequence of `write` calls: each element carries the requested buffer and
the byte count the OS accepts for that call. -/
def writeSeq (st : WriterState) (ops : List (List Nat × Nat)) : WriterState :=
  ops.foldl (fun s p => (write s p.1 p.2).1) st

/-- The numbered-backup map that §3 of the spec describes for one rotation,
written from the spec's words for refinement comparison with `rotate`:
every `.{i}` is renamed to `.{i+1}`, only a file whose new index would
exceed `max_files` is deleted (so indices `2 .. max_files` take the previous
`.{i-1}` contents), and the active file becomes `.1`. -/
def rotateClaimedBackups (st : WriterState) : Nat → Option (List Nat) :=
  fun j =>
    if j = 1 then some st.active
    else if 2 ≤ j ∧ j ≤ st.config.max_files then st.backups (j - 1)
    else none

/-- Rotation as claim C2 states it (spec-side definition for comparison with
the code-side `rotate`). -/
def rotateClaimed (st : WriterState) : WriterState :=
  { st with
    backups := rotateClaimedBackups st
    active := []
    current_size := 0 }

/-- Variant of `write` with the claimed rotation substituted, used only to exhibit where
the claimed and actual rotation disagree. -/
def writeClaimed (st : WriterState) (buf : List Nat) (k : Nat) : WriterState × Nat :=
  if shouldRotate st then
    if st.config.truncate_on_limit then
      (st, buf.length)
    else
      writeOs (rotateClaimed st) buf k
  else
    writeOs st buf k

/-- Sequences of `writeClaimed` calls. -/
def writeSeqClaimed (st : WriterState) (ops : List (List Nat × Nat)) : WriterState :=
  ops.foldl (fun s p => (writeClaimed s p.1 p.2).1) st

/-- A truncate-mode configuration with a 1 MB limit (the default already has
`truncate_on_limit = true`). -/
def truncCfg : RotatingFileConfig :=
  { RotatingFileConfig.default with max_size_mb := 1 }

/-- A concrete timestamp string of the `%Y%m%d_%H%M%S` shape. -/
def ts0 : List Char := "20250101_120000".toList

/-- A truncate-mode writer that has just reached its 1 MB limit exactly:
one full write of `1048576` bytes into a fresh writer. -/
def truncFull : WriterState :=
  (write (newWriter truncCfg ts0) (List.replicate 1048576 0) 1048576).1

/-- An archive-mode configuration with `max_files = 3` and a zero size limit,
so that every write rotates first — the quickest way to drive the rename
chain. -/
def archCfg : RotatingFileConfig :=
  { RotatingFileConfig.default with
    max_files := 3
    max_size_mb := 0
    truncate_on_limit := false }

/-! ### Verbosity governor (`src/tracing_subscriber.rs`) -/

/-- Structure `VerbosityConfig` from `src/config.rs`: the per-level thresholds. -/
structure VerbosityConfig where
  info_threshold : Nat
  debug_threshold : Nat
  trace_threshold : Nat
deriving DecidableEq, Repr

/-- Serde/`Default` values: 50 / 100 / 200. -/
def VerbosityConfig.default : VerbosityConfig :=
  { info_threshold := 50, debug_threshold := 100, trace_threshold := 200 }

/-- The slice of `Config` (`src/config.rs`) the governor reads: its
`verbosity` section.  (The `remove_debug` / `validate_docs` sections configure
unrelated CLI commands and are never read by the logging pipeline.) -/
structure Config where
  verbosity : VerbosityConfig
deriving DecidableEq, Repr

/-- Boolean substring test, mirroring Rust `str::contains(needle)`:
true iff some suffix of `hay` starts with `needle`. -/
def containsStr (hay needle : List Char) : Bool :=
  match hay with
  | [] => isPrefixList needle []
  | c :: t => isPrefixList needle (c :: t) || containsStr t needle

/-- ASCII lowercasing of a string, modelling `str::to_lowercase` on the ASCII
directive strings that `RUST_LOG` holds in practice. -/
def lowerStr (s : List Char) : List Char :=
  s.map Char.toLower

/-- Function `VerbosityCheckLayer::detect_configured_level`: reads `RUST_LOG`
(`none` when the variable is unset), lowercases it, and matches the
substrings `trace`, `debug`, `info`, `warn`, `error` in that order,
defaulting to `INFO` (this is the if-chain of the `Ok(rust_log)` arm). -/
def detectFromStr (s : List Char) : Level :=
  if containsStr (lowerStr s) "trace".toList then .trace
  else if containsStr (lowerStr s) "debug".toList then .debug
  else if containsStr (lowerStr s) "info".toList then .info
  else if containsStr (lowerStr s) "warn".toList then .warn
  else if containsStr (lowerStr s) "error".toList then .error
  else .info

/-- The `match` on the `RUST_LOG` lookup result: unset defaults to INFO. -/
def detectConfiguredLevel (rust_log : Option (List Char)) : Level :=
  match rust_log with
  | none => .info
  | some s => detectFromStr s

/-- State of `VerbosityCheckLayer`: the five `AtomicUsize` counters, the
level detected once at construction, and the loaded `Config`. -/
structure VerbosityState where
  error_count : Nat
  warn_count : Nat
  info_count : Nat
  debug_count : Nat
  trace_count : Nat
  configured_level : Level
  config : Config
deriving DecidableEq, Repr

/-- Constructor `VerbosityCheckLayer::with_config`: zeroes every counter and derives the
configured level exactly once from the `RUST_LOG` value (a parameter of the
model, since it comes from the environment). -/
def withConfig (config : Config) (rust_log : Option (List Char)) : VerbosityState :=
  { error_count := 0
    warn_count := 0
    info_count := 0
    debug_count := 0
    trace_count := 0
    configured_level := detectConfiguredLevel rust_log
    config := config }

/-- Function `<VerbosityCheckLayer as Layer>::on_event`: one atomic increment of the
counter matching the event's level. -/
def onEvent (s : VerbosityState) (l : Level) : VerbosityState :=
  match l with
  | .error => { s with error_count := s.error_count + 1 }
  | .warn => { s with warn_count := s.warn_count + 1 }
  | .info => { s with info_count := s.info_count + 1 }
  | .debug => { s with debug_count := s.debug_count + 1 }
  | .trace => { s with trace_count := s.trace_count + 1 }

/-- Function `VerbosityCheckLayer::total_count`: sum of the five counters. -/
def totalCount (s : VerbosityState) : Nat :=
  s.error_count + s.warn_count + s.info_count + s.debug_count + s.trace_count

/-- Structure `LogCounts` from `src/tracing_subscriber.rs`. -/
structure LogCounts where
  error : Nat
  warn : Nat
  info : Nat
  debug : Nat
  trace : Nat
deriving DecidableEq, Repr

/-- Function `VerbosityCheckLayer::counts_by_level`. -/
def countsByLevel (s : VerbosityState) : LogCounts :=
  { error := s.error_count
    warn := s.warn_count
    info := s.info_count
    debug := s.debug_count
    trace := s.trace_count }

/-- Structure `VerbosityWarning` from `src/tracing_subscriber.rs`. -/
structure VerbosityWarning where
  total_count : Nat
  threshold : Nat
  configured_level : Level
  counts : LogCounts
deriving DecidableEq, Repr

/-- The threshold lookup inside `VerbosityCheckLayer::check_verbosity`:
TRACE/DEBUG/INFO map to their configured thresholds, WARN and ERROR have
none. -/
def thresholdFor (cfg : Config) : Level → Option Nat
  | .trace => some cfg.verbosity.trace_threshold
  | .debug => some cfg.verbosity.debug_threshold
  | .info => some cfg.verbosity.info_threshold
  | .warn => none
  | .error => none

/-- Function `VerbosityCheckLayer::check_verbosity`: when the configured level has a
threshold and `total > threshold`, return the structured warning. -/
def checkVerbosity (s : VerbosityState) : Option VerbosityWarning :=
  match thresholdFor s.config s.configured_level with
  | some threshold_value =>
    if threshold_value < totalCount s then
      some { total_count := totalCount s
             threshold := threshold_value
             configured_level := s.configured_level
             counts := countsByLevel s }
    else
      none
  | none => none

/-! ### Event formatter (`ConditionalLocationFormatter::format_event`) -/

/-- One span in an event's scope, with its name and already-rendered
`FormattedFields` (as the formatter receives them). -/
structure SpanInfo where
  name : List Char
  fields : List Char
deriving DecidableEq, Repr

/-- A log event as seen by `format_event`: metadata (level, target, optional
source file and line), an optional span scope (root first, as
`scope.from_root()` yields it; `none` when `ctx.event_scope()` is `None`),
and the event's own rendered fields. -/
structure LogEvent where
  level : Level
  target : List Char
  file : Option (List Char)
  line : Option Nat
  scope : Option (List SpanInfo)
  message : List Char
deriving DecidableEq, Repr

/-- The `Display` rendering of a `tracing::Level`. -/
def levelName : Level → List Char
  | .error => "ERROR".toList
  | .warn => "WARN".toList
  | .info => "INFO".toList
  | .debug => "DEBUG".toList
  | .trace => "TRACE".toList

/-- Opening brace character (`0x7b`). -/
def lbrace : Char := Char.ofNat 123

/-- Closing brace character (`0x7d`). -/
def rbrace : Char := Char.ofNat 125

/-- Rendering of one span: its name, then `{fields}` when the formatted
fields are non-empty. -/
def renderSpan (s : SpanInfo) : List Char :=
  s.name ++ (if s.fields.isEmpty then [] else lbrace :: (s.fields ++ [rbrace]))

/-- The span loop of `format_event`: spans from the root, a `:` separator
before every span but the first. -/
def renderSpans : List SpanInfo → List Char
  | [] => []
  | [s] => renderSpan s
  | s :: rest => renderSpan s ++ ':' :: renderSpans rest

/-- The decimal rendering of a line number. -/
def natDigits (n : Nat) : List Char :=
  (toString n).toList

/-- The ` {target} {file}:{line}` fragment written only for ERROR/WARN, with
`file:line` present only when both are available in the metadata. -/
def locationPart (e : LogEvent) : List Char :=
  ' ' :: e.target ++
    (match e.file, e.line with
     | some f, some n => ' ' :: (f ++ ':' :: natDigits n)
     | _, _ => [])

/-- The level prefix of a formatted line: nothing for INFO; otherwise the
level name, the target/location fragment for ERROR/WARN only, then `": "`. -/
def levelHeader (e : LogEvent) : List Char :=
  if e.level = .info then []
  else
    levelName e.level ++
      (if e.level = .error ∨ e.level = .warn then locationPart e else []) ++
      ": ".toList

/-- The scope fragment: nothing when the event has no scope, otherwise the
rendered spans followed by one space. -/
def scopePart (e : LogEvent) : List Char :=
  match e.scope with
  | none => []
  | some spans => renderSpans spans ++ [' ']

/-- Function `ConditionalLocationFormatter::format_event` as a pure function from one
event to one output line (the writes performed on the `Writer`, concatenated,
ending in the `writeln!` newline). -/
def formatEvent (e : LogEvent) : List Char :=
  levelHeader e ++ scopePart e ++ e.message ++ ['\n']

/-- A concrete WARN event with full source location, for witnesses. -/
def evWarn : LogEvent :=
  { level := .warn
    target := "my".toList
    file := some "f.rs".toList
    line := some 31
    scope := none
    message := "m".toList }

/-- The same event at INFO level, for witnesses. -/
def evInfo : LogEvent :=
  { evWarn with level := .info }

/-! ## Rotation-loop lemmas -/

theorem applyStep_self (mf : Nat) (b : Nat → Option (List Nat)) (i : Nat) :
    applyStep mf b i i = none := by
  unfold applyStep
  cases hb : b i with
  | none => exact hb
  | some c =>
    by_cases h : mf ≤ i + 1
    · simp [h]
    · simp [h, Nat.ne_of_lt (Nat.lt_succ_self i)]

theorem applyStep_untouched (mf : Nat) (b : Nat → Option (List Nat)) (i j : Nat)
    (h1 : j ≠ i) (h2 : j ≠ i + 1) : applyStep mf b i j = b j := by
  unfold applyStep
  cases hb : b i with
  | none => rfl
  | some c =>
    by_cases h : mf ≤ i + 1
    · simp [h, h1]
    · simp [h, h1, h2]

theorem applyStep_high (mf : Nat) (b : Nat → Option (List Nat)) (i j : Nat)
    (h1 : i < j) (h2 : mf ≤ j) : applyStep mf b i j = b j := by
  unfold applyStep
  cases hb : b i with
  | none => rfl
  | some c =>
    by_cases h : mf ≤ i + 1
    · simp [h, Nat.ne_of_gt h1]
    · have : j ≠ i + 1 := by omega
      simp [h, Nat.ne_of_gt h1, this]

theorem rotateLoop_untouched_high (mf : Nat) :
    ∀ (n : Nat) (b : Nat → Option (List Nat)) (j : Nat), n + 2 ≤ j →
      rotateLoop mf n b j = b j := by
  intro n
  induction n with
  | zero => intro b j _; rfl
  | succ n ih =>
    intro b j hj
    show rotateLoop mf n (applyStep mf b (n + 1)) j = b j
    rw [ih _ j (by omega)]
    exact applyStep_untouched mf b (n + 1) j (by omega) (by omega)

theorem rotateLoop_preserved_high (mf : Nat) :
    ∀ (n : Nat) (b : Nat → Option (List Nat)) (j : Nat), mf ≤ j → n < mf →
      rotateLoop mf n b j = b j := by
  intro n
  induction n with
  | zero => intro b j _ _; rfl
  | succ n ih =>
    intro b j hj hn
    show rotateLoop mf n (applyStep mf b (n + 1)) j = b j
    rw [ih _ j hj (by omega)]
    exact applyStep_high mf b (n + 1) j (by omega) hj

theorem rotateLoop_zero (mf : Nat) :
    ∀ (n : Nat) (b : Nat → Option (List Nat)), rotateLoop mf n b 0 = b 0 := by
  intro n
  induction n with
  | zero => intro b; rfl
  | succ n ih =>
    intro b
    show rotateLoop mf n (applyStep mf b (n + 1)) 0 = b 0
    rw [ih _]
    exact applyStep_untouched mf b (n + 1) 0 (by omega) (by omega)

theorem rotateLoop_top (mf m : Nat) (b : Nat → Option (List Nat))
    (h1 : m + 2 < mf) (h2 : b (m + 2) = none) :
    rotateLoop mf (m + 1) b (m + 2) = b (m + 1) := by
  show rotateLoop mf m (applyStep mf b (m + 1)) (m + 2) = b (m + 1)
  rw [rotateLoop_untouched_high mf m _ (m + 2) (by omega)]
  unfold applyStep
  cases hb : b (m + 1) with
  | none => exact h2
  | some c =>
    have hlt : ¬ mf ≤ m + 1 + 1 := by omega
    simp [hlt, hb]

theorem rotateLoop_shift (mf : Nat) :
    ∀ (n : Nat) (b : Nat → Option (List Nat)) (j : Nat), 2 ≤ j → j ≤ n → n < mf →
      rotateLoop mf n b j = b (j - 1) := by
  intro n
  induction n with
  | zero => intro b j h2 hj _; omega
  | succ n ih =>
    intro b j h2 hj hn
    show rotateLoop mf n (applyStep mf b (n + 1)) j = b (j - 1)
    by_cases hcase : j ≤ n
    · rw [ih _ j h2 hcase (by omega)]
      exact applyStep_untouched mf b (n + 1) (j - 1) (by omega) (by omega)
    · have hj1 : j = n + 1 := by omega
      subst hj1
      obtain ⟨m, rfl⟩ : ∃ m, n = m + 1 := ⟨n - 1, by omega⟩
      rw [show m + 1 + 1 = m + 2 from rfl,
        rotateLoop_top mf m _ (by omega) (applyStep_self mf b (m + 2))]
      rw [applyStep_untouched mf b (m + 2) (m + 1) (by omega) (by omega)]
      congr 1

/-! ## Rotate and write lemmas -/

theorem rotate_backups_one (st : WriterState) : (rotate st).backups 1 = some st.active := by
  simp [rotate]

theorem rotate_active (st : WriterState) : (rotate st).active = [] := rfl

theorem rotate_size (st : WriterState) : (rotate st).current_size = 0 := rfl

theorem rotate_config (st : WriterState) : (rotate st).config = st.config := rfl

theorem rotate_backups_shift (st : WriterState) (j : Nat)
    (h2 : 2 ≤ j) (hj : j + 1 ≤ st.config.max_files) :
    (rotate st).backups j = st.backups (j - 1) := by
  have hne : j ≠ 1 := by omega
  simp only [rotate, hne, if_false]
  exact rotateLoop_shift st.config.max_files (st.config.max_files - 1) st.backups j
    h2 (by omega) (by omega)

theorem rotate_backups_high (st : WriterState) (j : Nat)
    (h2 : 2 ≤ st.config.max_files) (hj : st.config.max_files ≤ j) :
    (rotate st).backups j = st.backups j := by
  have hne : j ≠ 1 := by omega
  simp only [rotate, hne, if_false]
  exact rotateLoop_preserved_high st.config.max_files (st.config.max_files - 1)
    st.backups j hj (by omega)

theorem writeOs_backups (st : WriterState) (buf : List Nat) (k : Nat) :
    (writeOs st buf k).1.backups = st.backups := rfl

theorem writeOs_size (st : WriterState) (buf : List Nat) (k : Nat) :
    (writeOs st buf k).1.current_size = st.current_size + min k buf.length := rfl

theorem writeOs_active (st : WriterState) (buf : List Nat) (k : Nat) :
    (writeOs st buf k).1.active = st.active ++ buf.take (min k buf.length) := rfl

theorem writeOs_ret (st : WriterState) (buf : List Nat) (k : Nat) :
    (writeOs st buf k).2 = min k buf.length := rfl

theorem write_config (st : WriterState) (buf : List Nat) (k : Nat) :
    (write st buf k).1.config = st.config := by
  unfold write
  split
  · split
    · rfl
    · rfl
  · rfl

theorem write_at_limit (st : WriterState) (buf : List Nat) (k : Nat)
    (htr : st.config.truncate_on_limit = true) (hr : shouldRotate st = true) :
    write st buf k = (st, buf.length) := by
  simp [write, hr, htr]

theorem take_min_length (buf : List Nat) (k : Nat) :
    (buf.take (min k buf.length)).length = min k buf.length := by
  rw [List.length_take]
  omega

theorem write_size_eq_active (st : WriterState) (buf : List Nat) (k : Nat)
    (h : st.current_size = st.active.length) :
    (write st buf k).1.current_size = (write st buf k).1.active.length := by
  unfold write
  split
  · split
    · exact h
    · simp [writeOs, rotate, take_min_length]
  · simp [writeOs, take_min_length, h]

theorem writeSeq_size_eq_active (ops : List (List Nat × Nat)) :
    ∀ st : WriterState, st.current_size = st.active.length →
      (writeSeq st ops).current_size = (writeSeq st ops).active.length := by
  induction ops with
  | nil => intro st h; exact h
  | cons p ops ih =>
    intro st h
    exact ih _ (write_size_eq_active st p.1 p.2 h)

theorem write_size_bound (st : WriterState) (buf : List Nat) (k L : Nat)
    (htr : st.config.truncate_on_limit = true) (hb : buf.length ≤ L)
    (h : st.current_size ≤ st.config.max_size_mb * 1024 * 1024 + L) :
    (write st buf k).1.current_size ≤ st.config.max_size_mb * 1024 * 1024 + L := by
  unfold write
  split
  · simp only [htr, if_true]
    exact h
  · rename_i hrot
    have hlt : st.current_size < st.config.max_size_mb * 1024 * 1024 := by
      simp [shouldRotate] at hrot
      omega
    simp only [writeOs_size]
    have hmin : min k buf.length ≤ L := le_trans (Nat.min_le_right _ _) hb
    omega

theorem writeSeq_size_bound (L M : Nat) (ops : List (List Nat × Nat)) :
    ∀ st : WriterState, st.config.truncate_on_limit = true →
      st.config.max_size_mb * 1024 * 1024 = M →
      (∀ p ∈ ops, p.1.length ≤ L) → st.current_size ≤ M + L →
      (writeSeq st ops).current_size ≤ M + L := by
  induction ops with
  | nil => intro st _ _ _ h; exact h
  | cons p ops ih =>
    intro st htr hM hop h
    show (writeSeq (write st p.1 p.2).1 ops).current_size ≤ M + L
    apply ih
    · rw [write_config]; exact htr
    · rw [write_config]; exact hM
    · intro q hq; exact hop q (List.mem_cons_of_mem _ hq)
    · have hw := write_size_bound st p.1 p.2 L htr (hop p (List.mem_cons_self _ _))
        (by rw [hM]; exact h)
      rwa [hM] at hw

theorem rotate_noHigh (st : WriterState) (h2 : 2 ≤ st.config.max_files)
    (h : ∀ j, st.config.max_files ≤ j → st.backups j = none) :
    ∀ j, st.config.max_files ≤ j → (rotate st).backups j = none := by
  intro j hj
  rw [rotate_backups_high st j h2 hj]
  exact h j hj

theorem write_noHigh (st : WriterState) (buf : List Nat) (k : Nat)
    (h2 : 2 ≤ st.config.max_files)
    (h : ∀ j, st.config.max_files ≤ j → st.backups j = none) :
    ∀ j, st.config.max_files ≤ j → (write st buf k).1.backups j = none := by
  intro j hj
  unfold write
  split
  · split
    · exact h j hj
    · show (writeOs (rotate st) buf k).1.backups j = none
      rw [writeOs_backups]
      exact rotate_noHigh st h2 h j hj
  · rw [writeOs_backups]
    exact h j hj

theorem writeSeq_noHigh (M : Nat) (ops : List (List Nat × Nat)) :
    ∀ st : WriterState, st.config.max_files = M → 2 ≤ M →
      (∀ j, M ≤ j → st.backups j = none) →
      ∀ j, M ≤ j → (writeSeq st ops).backups j = none := by
  induction ops with
  | nil => intro st _ _ h j hj; exact h j hj
  | cons p ops ih =>
    intro st hMf h2 h j hj
    show (writeSeq (write st p.1 p.2).1 ops).backups j = none
    apply ih
    · rw [write_config]; exact hMf
    · exact h2
    · intro q hq
      exact write_noHigh st p.1 p.2 (by omega) (fun r hr => h r (by omega)) q (by omega)
    · exact hj

/-! ## Concrete-state lemmas for the witnesses and counterexamples -/

theorem newWriter_shouldRotate_trunc : shouldRotate (newWriter truncCfg ts0) = false := by
  simp [shouldRotate, newWriter, truncCfg, RotatingFileConfig.default]

theorem truncFull_size : truncFull.current_size = 1048576 := by
  rw [truncFull]
  unfold write
  rw [newWriter_shouldRotate_trunc]
  simp only [Bool.false_eq_true, if_false]
  rw [writeOs_size, List.length_replicate, Nat.min_self]
  rfl

theorem truncFull_config : truncFull.config = truncCfg := by
  rw [truncFull, write_config]
  rfl

theorem truncFull_shouldRotate : shouldRotate truncFull = true := by
  simp [shouldRotate, truncFull_size, truncFull_config, truncCfg, RotatingFileConfig.default]

/-! ## Claim C1 -/

/-- C1, counterexample: with `truncate_on_limit = true` and a 1 MB limit, a
single `write` call of `1048577` bytes issued before the limit is reached
passes straight through, leaving the active file at `1048577` bytes — one
more than `max_size_mb * 1024 * 1024 = 1048576` — so the on-disk size of the
active file can exceed the configured limit (the pre-write check
`current_size >= max_size_bytes` does not bound the overshooting write
itself). -/
theorem c1_counterexample :
    truncCfg.truncate_on_limit = true ∧
    truncCfg.max_size_mb * 1024 * 1024 = 1048576 ∧
    (write (newWriter truncCfg ts0) (List.replicate 1048577 0) 1048577).1.active.length
      = 1048577 := by
  refine ⟨rfl, rfl, ?_⟩
  unfold write
  rw [newWriter_shouldRotate_trunc]
  simp only [Bool.false_eq_true, if_false]
  rw [writeOs_active]
  rw [show (newWriter truncCfg ts0).active = [] from rfl, List.nil_append,
    take_min_length, List.length_replicate, Nat.min_self]

/-- C1, amended: for a truncate-mode writer, once `current_size` has reached
`max_size_mb * 1024 * 1024` every write returns the full requested byte count
and changes nothing, and for any sequence of writes whose individual
requested lengths are at most `L`, the byte counter and the active file's
on-disk size never exceed `max_size_mb * 1024 * 1024 + L` (the limit can be
overshot by at most one write's length, because the size check runs before
each write, not after). -/
theorem c1_truncate_bounded (cfg : RotatingFileConfig) (ts : List Char)
    (ops : List (List Nat × Nat)) (L : Nat)
    (htr : cfg.truncate_on_limit = true) (hL : ∀ p ∈ ops, p.1.length ≤ L) :
    (writeSeq (newWriter cfg ts) ops).current_size
      ≤ cfg.max_size_mb * 1024 * 1024 + L ∧
    (writeSeq (newWriter cfg ts) ops).active.length
      ≤ cfg.max_size_mb * 1024 * 1024 + L ∧
    (∀ st buf k, st.config.truncate_on_limit = true →
      st.config.max_size_mb * 1024 * 1024 ≤ st.current_size →
      write st buf k = (st, buf.length)) := by
  have hsize : (writeSeq (newWriter cfg ts) ops).current_size
      ≤ cfg.max_size_mb * 1024 * 1024 + L :=
    writeSeq_size_bound L (cfg.max_size_mb * 1024 * 1024) ops (newWriter cfg ts)
      htr rfl hL (by simp [newWriter])
  refine ⟨hsize, ?_, ?_⟩
  · rw [← writeSeq_size_eq_active ops (newWriter cfg ts) rfl]
    exact hsize
  · intro st buf k h1 h2
    exact write_at_limit st buf k h1 (by simpa [shouldRotate] using h2)

/-- C1, witness for the amended theorem at a concrete input. -/
theorem c1_truncate_bounded_witness :
    (writeSeq (newWriter truncCfg ts0) []).current_size
      ≤ truncCfg.max_size_mb * 1024 * 1024 + 0 :=
  (c1_truncate_bounded truncCfg ts0 [] 0 rfl (by simp)).1

/-! ## Claim C2 -/

/-- C2, counterexample: with `max_files = 3`, driving three rotations from a
fresh archive-mode writer leaves no `.3` backup — the code deletes `.2` (the
file whose new index would *reach* `max_files`), whereas the claimed rotation
(renaming every `.{i}` to `.{i+1}` and deleting only a file whose index would
*exceed* `max_files`) would have produced `.3`.  The code therefore retains
at most `max_files - 1` numbered files, not `max_files`. -/
theorem c2_counterexample :
    archCfg.max_files = 3 ∧
    (writeSeq (newWriter archCfg ts0) [([1], 1), ([2], 1), ([3], 1)]).backups 3
      = none ∧
    (writeSeqClaimed (newWriter archCfg ts0) [([1], 1), ([2], 1), ([3], 1)]).backups 3
      = some [] := by
  refine ⟨rfl, by decide, by decide⟩

/-- C2, amended: archive-mode rotation renames `.{i}` to `.{i+1}` from the
highest index downward, but deletes the file at index `max_files - 1` (the
one whose new index would reach `max_files`) instead of renaming it; indices
at or above `max_files` are never touched; the active file becomes `.1`, a
fresh empty file is opened with the byte counter reset to zero, and the
pending bytes are then written into the new file; consequently, after any
number of rotations at most `max_files - 1` numbered files exist (none at
index `max_files` or beyond), and `.1` is always the most recently
rotated-out file. -/
theorem c2_amended (st : WriterState) (buf : List Nat) (k : Nat)
    (cfg : RotatingFileConfig) (ts : List Char) (ops : List (List Nat × Nat))
    (h2 : 2 ≤ st.config.max_files) (hc2 : 2 ≤ cfg.max_files)
    (hk : k ≤ buf.length) :
    (rotate st).backups 1 = some st.active ∧
    (rotate st).active = [] ∧
    (rotate st).current_size = 0 ∧
    (∀ j, 2 ≤ j → j + 1 ≤ st.config.max_files →
      (rotate st).backups j = st.backups (j - 1)) ∧
    (∀ j, st.config.max_files ≤ j → (rotate st).backups j = st.backups j) ∧
    (st.config.truncate_on_limit = false → shouldRotate st = true →
      (write st buf k).1.active = buf.take k ∧ (write st buf k).2 = k ∧
      (write st buf k).1.backups 1 = some st.active) ∧
    (∀ j, cfg.max_files ≤ j → (writeSeq (newWriter cfg ts) ops).backups j = none) := by
  refine ⟨rotate_backups_one st, rfl, rfl,
    fun j hj1 hj2 => rotate_backups_shift st j hj1 hj2,
    fun j hj => rotate_backups_high st j h2 hj, ?_, ?_⟩
  · intro hf hr
    have hw : write st buf k = writeOs (rotate st) buf k := by
      simp [write, hr, hf]
    rw [hw, writeOs_active, writeOs_ret, writeOs_backups, rotate_active,
      List.nil_append, Nat.min_eq_left hk]
    exact ⟨rfl, rfl, rotate_backups_one st⟩
  · exact writeSeq_noHigh cfg.max_files ops (newWriter cfg ts) rfl hc2
      (fun j _ => rfl)

/-- C2, witness for the amended theorem at a concrete input. -/
theorem c2_amended_witness :
    (rotate (newWriter archCfg ts0)).backups 1
      = some (newWriter archCfg ts0).active :=
  (c2_amended (newWriter archCfg ts0) [1] 1 archCfg ts0 [] (by decide) (by decide)
    (by decide)).1

/-! ## Claim C3 -/

/-- C3, counterexample: a truncate-mode writer sitting exactly at its 1 MB
limit answers a 1-byte write with `Ok(1)` while persisting nothing — the
returned count is the requested length, not the number of bytes actually
persisted (which is zero, the whole state being unchanged). -/
theorem c3_counterexample :
    (write truncFull [7] 1).2 = 1 ∧
    (write truncFull [7] 1).1.active = truncFull.active ∧
    (write truncFull [7] 1).1 = truncFull := by
  have h := write_at_limit truncFull [7] 1 (by rw [truncFull_config]; rfl)
    truncFull_shouldRotate
  rw [h]
  exact ⟨rfl, rfl, rfl⟩

/-- C3, amended: whenever `write` actually reaches the file handle (the size
limit is not hit, or archive-mode rotation just ran), the returned `Ok(n)`
equals the number of bytes appended to the active file by that call; only
the truncate-mode limit-skip branch returns the full requested length while
persisting zero bytes. -/
theorem c3_amended (st : WriterState) (buf : List Nat) (k : Nat)
    (hk : k ≤ buf.length) :
    (shouldRotate st = true → st.config.truncate_on_limit = true →
      (write st buf k).2 = buf.length ∧ (write st buf k).1.active = st.active) ∧
    (shouldRotate st = true → st.config.truncate_on_limit = false →
      (write st buf k).2 = k ∧ (write st buf k).1.active = buf.take k ∧
      (write st buf k).1.active.length = k) ∧
    (shouldRotate st = false →
      (write st buf k).2 = k ∧
      (write st buf k).1.active = st.active ++ buf.take k ∧
      (write st buf k).1.active.length = st.active.length + k) := by
  refine ⟨?_, ?_, ?_⟩
  · intro hr htr
    rw [write_at_limit st buf k htr hr]
    exact ⟨rfl, rfl⟩
  · intro hr htr
    have hw : write st buf k = writeOs (rotate st) buf k := by
      simp [write, hr, htr]
    rw [hw, writeOs_active, writeOs_ret, rotate_active, List.nil_append,
      Nat.min_eq_left hk]
    refine ⟨rfl, rfl, ?_⟩
    rw [List.length_take]
    omega
  · intro hr
    have hw : write st buf k = writeOs st buf k := by
      simp [write, hr]
    rw [hw, writeOs_active, writeOs_ret, Nat.min_eq_left hk]
    refine ⟨rfl, rfl, ?_⟩
    rw [List.length_append, List.length_take]
    omega

/-- C3, witness for the amended theorem at a concrete input. -/
theorem c3_amended_witness : (write (newWriter truncCfg ts0) [5, 6] 2).2 = 2 :=
  ((c3_amended (newWriter truncCfg ts0) [5, 6] 2 (by decide)).2.2
    newWriter_shouldRotate_trunc).1

/-! ## Claim C6 -/

/-- C6: the byte counter always equals the length of the active file — it is
zero at initialization (fresh truncated file), writes advance it by exactly
the number of bytes the OS actually accepted (`min k buf.length`, not the
requested `buf.length`), rotation resets it to zero together with the file,
and the equality holds after any sequence of write calls from a fresh
writer. -/
theorem c6_size_tracks_bytes (cfg : RotatingFileConfig) (ts : List Char)
    (ops : List (List Nat × Nat)) (st : WriterState) (buf : List Nat) (k : Nat) :
    (writeSeq (newWriter cfg ts) ops).current_size
      = (writeSeq (newWriter cfg ts) ops).active.length ∧
    (newWriter cfg ts).current_size = 0 ∧
    (newWriter cfg ts).active = [] ∧
    (rotate st).current_size = 0 ∧
    (rotate st).active = [] ∧
    (writeOs st buf k).1.current_size = st.current_size + min k buf.length ∧
    (writeOs st buf k).2 = min k buf.length :=
  ⟨writeSeq_size_eq_active ops _ rfl, rfl, rfl, rfl, rfl, rfl, rfl⟩

/-! ## Claim C10 -/

/-- C10: in truncate mode, a write issued once `current_size` has reached
`max_size_mb * 1024 * 1024` returns `Ok(buf.len())` and leaves the writer
completely unchanged — byte counter, active file contents, path, and
configuration included. -/
theorem c10_truncate_frame (st : WriterState) (buf : List Nat) (k : Nat)
    (htr : st.config.truncate_on_limit = true)
    (hr : st.config.max_size_mb * 1024 * 1024 ≤ st.current_size) :
    write st buf k = (st, buf.length) ∧
    (write st buf k).1.active = st.active ∧
    (write st buf k).1.current_size = st.current_size ∧
    (write st buf k).1.log_path = st.log_path ∧
    (write st buf k).1.config = st.config ∧
    (write st buf k).1.backups = st.backups := by
  have h := write_at_limit st buf k htr (by simpa [shouldRotate] using hr)
  rw [h]
  exact ⟨rfl, rfl, rfl, rfl, rfl, rfl⟩

/-- C10, witness at a concrete at-limit writer. -/
theorem c10_truncate_frame_witness :
    (write truncFull [7, 8] 2).2 = 2 ∧
    (write truncFull [7, 8] 2).1.active = truncFull.active := by
  obtain ⟨hp, ha, _⟩ := c10_truncate_frame truncFull [7, 8] 2
    (by rw [truncFull_config]; rfl) (by rw [truncFull_config, truncFull_size]; decide)
  exact ⟨by rw [hp]; rfl, ha⟩

/-! ## Governor lemmas -/

theorem onEvent_configured_level (s : VerbosityState) (l : Level) :
    (onEvent s l).configured_level = s.configured_level := by
  cases l <;> rfl

theorem onEvent_config (s : VerbosityState) (l : Level) :
    (onEvent s l).config = s.config := by
  cases l <;> rfl

theorem foldl_onEvent_configured_level (events : List Level) :
    ∀ s : VerbosityState,
      (events.foldl onEvent s).configured_level = s.configured_level := by
  induction events with
  | nil => intro s; rfl
  | cons a t ih => intro s; rw [List.foldl_cons, ih, onEvent_configured_level]

theorem foldl_onEvent_config (events : List Level) :
    ∀ s : VerbosityState, (events.foldl onEvent s).config = s.config := by
  induction events with
  | nil => intro s; rfl
  | cons a t ih => intro s; rw [List.foldl_cons, ih, onEvent_config]

theorem foldl_onEvent_error (events : List Level) :
    ∀ s : VerbosityState,
      (events.foldl onEvent s).error_count = s.error_count + events.count .error := by
  induction events with
  | nil => intro s; simp
  | cons a t ih =>
    intro s
    rw [List.foldl_cons, ih]
    cases a <;> simp [onEvent, List.count_cons] <;> omega

theorem foldl_onEvent_warn (events : List Level) :
    ∀ s : VerbosityState,
      (events.foldl onEvent s).warn_count = s.warn_count + events.count .warn := by
  induction events with
  | nil => intro s; simp
  | cons a t ih =>
    intro s
    rw [List.foldl_cons, ih]
    cases a <;> simp [onEvent, List.count_cons] <;> omega

theorem foldl_onEvent_info (events : List Level) :
    ∀ s : VerbosityState,
      (events.foldl onEvent s).info_count = s.info_count + events.count .info := by
  induction events with
  | nil => intro s; simp
  | cons a t ih =>
    intro s
    rw [List.foldl_cons, ih]
    cases a <;> simp [onEvent, List.count_cons] <;> omega

theorem foldl_onEvent_debug (events : List Level) :
    ∀ s : VerbosityState,
      (events.foldl onEvent s).debug_count = s.debug_count + events.count .debug := by
  induction events with
  | nil => intro s; simp
  | cons a t ih =>
    intro s
    rw [List.foldl_cons, ih]
    cases a <;> simp [onEvent, List.count_cons] <;> omega

theorem foldl_onEvent_trace (events : List Level) :
    ∀ s : VerbosityState,
      (events.foldl onEvent s).trace_count = s.trace_count + events.count .trace := by
  induction events with
  | nil => intro s; simp
  | cons a t ih =>
    intro s
    rw [List.foldl_cons, ih]
    cases a <;> simp [onEvent, List.count_cons] <;> omega

theorem foldl_onEvent_total (events : List Level) :
    ∀ s : VerbosityState,
      totalCount (events.foldl onEvent s) = totalCount s + events.length := by
  induction events with
  | nil => intro s; simp
  | cons a t ih =>
    intro s
    rw [List.foldl_cons, ih]
    cases a <;> simp [onEvent, totalCount] <;> omega

theorem length_eq_count_sum (events : List Level) :
    events.length = events.count .error + events.count .warn + events.count .info
      + events.count .debug + events.count .trace := by
  induction events with
  | nil => simp
  | cons a t ih =>
    cases a <;> simp [List.count_cons] <;> omega

theorem checkVerbosity_isSome_iff (s : VerbosityState) (tv : Nat)
    (h : thresholdFor s.config s.configured_level = some tv) :
    ((checkVerbosity s).isSome = true ↔ tv < totalCount s) := by
  unfold checkVerbosity
  rw [h]
  by_cases hc : tv < totalCount s <;> simp [hc]

theorem checkVerbosity_eq_none_iff (s : VerbosityState) (tv : Nat)
    (h : thresholdFor s.config s.configured_level = some tv) :
    (checkVerbosity s = none ↔ totalCount s ≤ tv) := by
  unfold checkVerbosity
  rw [h]
  by_cases hc : tv < totalCount s <;> simp [hc] <;> omega

/-! ## Claim C4 -/

/-- C4: after any interleaving of recorded events (`on_event` is an atomic
increment on the counter of the event's level, so any concurrent execution is
some sequential interleaving), each per-severity counter equals exactly the
number of events of that severity, `total_count` equals the number of events,
the total is the sum of the five per-level counts, and no single step ever
decreases a counter. -/
theorem c4_governor_counters (config : Config) (rust_log : Option (List Char))
    (events : List Level) :
    (events.foldl onEvent (withConfig config rust_log)).error_count
      = events.count .error ∧
    (events.foldl onEvent (withConfig config rust_log)).warn_count
      = events.count .warn ∧
    (events.foldl onEvent (withConfig config rust_log)).info_count
      = events.count .info ∧
    (events.foldl onEvent (withConfig config rust_log)).debug_count
      = events.count .debug ∧
    (events.foldl onEvent (withConfig config rust_log)).trace_count
      = events.count .trace ∧
    totalCount (events.foldl onEvent (withConfig config rust_log))
      = events.length ∧
    totalCount (events.foldl onEvent (withConfig config rust_log))
      = events.count .error + events.count .warn + events.count .info
        + events.count .debug + events.count .trace ∧
    (∀ (t : VerbosityState) (l : Level),
      t.error_count ≤ (onEvent t l).error_count ∧
      t.warn_count ≤ (onEvent t l).warn_count ∧
      t.info_count ≤ (onEvent t l).info_count ∧
      t.debug_count ≤ (onEvent t l).debug_count ∧
      t.trace_count ≤ (onEvent t l).trace_count) := by
  refine ⟨?_, ?_, ?_, ?_, ?_, ?_, ?_, ?_⟩
  · rw [foldl_onEvent_error]; simp [withConfig]
  · rw [foldl_onEvent_warn]; simp [withConfig]
  · rw [foldl_onEvent_info]; simp [withConfig]
  · rw [foldl_onEvent_debug]; simp [withConfig]
  · rw [foldl_onEvent_trace]; simp [withConfig]
  · rw [foldl_onEvent_total]; simp [withConfig, totalCount]
  · rw [foldl_onEvent_total, ← length_eq_count_sum]; simp [withConfig, totalCount]
  · intro t l
    cases l <;> simp [onEvent]

/-! ## Claim C5 -/

/-- C5: `check_verbosity` warns exactly when the configured level is TRACE,
DEBUG or INFO and the total strictly exceeds that level's threshold; WARN and
ERROR never warn; the warning carries the total, the threshold, the
configured level and the per-level breakdown; and with level INFO and
`info_threshold = 50`, any 51 recorded events of any mix trigger a warning
while exactly 50 do not. -/
theorem c5_check_threshold (s : VerbosityState) (vc : VerbosityConfig)
    (events : List Level) :
    (s.configured_level = .warn ∨ s.configured_level = .error →
      checkVerbosity s = none) ∧
    (s.configured_level = .trace →
      ((checkVerbosity s).isSome = true
        ↔ s.config.verbosity.trace_threshold < totalCount s)) ∧
    (s.configured_level = .debug →
      ((checkVerbosity s).isSome = true
        ↔ s.config.verbosity.debug_threshold < totalCount s)) ∧
    (s.configured_level = .info →
      ((checkVerbosity s).isSome = true
        ↔ s.config.verbosity.info_threshold < totalCount s)) ∧
    (∀ w, checkVerbosity s = some w →
      w.total_count = totalCount s ∧ w.configured_level = s.configured_level ∧
      w.counts = countsByLevel s ∧
      thresholdFor s.config s.configured_level = some w.threshold) ∧
    (vc.info_threshold = 50 →
      (events.length = 51 →
        (checkVerbosity
          (events.foldl onEvent (withConfig ⟨vc⟩ (some "info".toList)))).isSome
          = true) ∧
      (events.length = 50 →
        checkVerbosity
          (events.foldl onEvent (withConfig ⟨vc⟩ (some "info".toList)))
          = none)) := by
  refine ⟨?_, ?_, ?_, ?_, ?_, ?_⟩
  · rintro (h | h) <;> simp [checkVerbosity, thresholdFor, h]
  · intro h
    exact checkVerbosity_isSome_iff s _ (by rw [h]; rfl)
  · intro h
    exact checkVerbosity_isSome_iff s _ (by rw [h]; rfl)
  · intro h
    exact checkVerbosity_isSome_iff s _ (by rw [h]; rfl)
  · intro w hw
    cases hl : s.configured_level with
    | warn => simp [checkVerbosity, thresholdFor, hl] at hw
    | error => simp [checkVerbosity, thresholdFor, hl] at hw
    | trace =>
      simp only [checkVerbosity, thresholdFor, hl] at hw
      split at hw
      · obtain rfl := Option.some.inj hw
        exact ⟨rfl, rfl, rfl, rfl⟩
      · simp at hw
    | debug =>
      simp only [checkVerbosity, thresholdFor, hl] at hw
      split at hw
      · obtain rfl := Option.some.inj hw
        exact ⟨rfl, rfl, rfl, rfl⟩
      · simp at hw
    | info =>
      simp only [checkVerbosity, thresholdFor, hl] at hw
      split at hw
      · obtain rfl := Option.some.inj hw
        exact ⟨rfl, rfl, rfl, rfl⟩
      · simp at hw
  · intro h50
    have hlvl :
        (events.foldl onEvent (withConfig ⟨vc⟩ (some "info".toList))).configured_level
          = Level.info := by
      rw [foldl_onEvent_configured_level]
      show detectConfiguredLevel (some "info".toList) = Level.info
      decide
    have hcfg :
        (events.foldl onEvent (withConfig ⟨vc⟩ (some "info".toList))).config
          = (⟨vc⟩ : Config) := by
      rw [foldl_onEvent_config]
      rfl
    have htot :
        totalCount (events.foldl onEvent (withConfig ⟨vc⟩ (some "info".toList)))
          = events.length := by
      rw [foldl_onEvent_total]
      simp [withConfig, totalCount]
    have hth : thresholdFor
        (events.foldl onEvent (withConfig ⟨vc⟩ (some "info".toList))).config
        (events.foldl onEvent (withConfig ⟨vc⟩ (some "info".toList))).configured_level
        = some 50 := by
      rw [hcfg, hlvl]
      show some vc.info_threshold = some 50
      rw [h50]
    constructor
    · intro hlen
      rw [checkVerbosity_isSome_iff _ 50 hth, htot, hlen]
      omega
    · intro hlen
      rw [checkVerbosity_eq_none_iff _ 50 hth, htot, hlen]

/-- C5, witness: with level WARN no warning is produced, and 51 WARN events
at level INFO with threshold 50 do produce one. -/
theorem c5_check_threshold_witness :
    checkVerbosity (withConfig ⟨VerbosityConfig.default⟩ (some "warn".toList))
      = none ∧
    (checkVerbosity ((List.replicate 51 Level.warn).foldl onEvent
      (withConfig ⟨VerbosityConfig.default⟩ (some "info".toList)))).isSome
      = true := by
  constructor
  · exact (c5_check_threshold
      (withConfig ⟨VerbosityConfig.default⟩ (some "warn".toList))
      VerbosityConfig.default []).1 (Or.inl (by decide))
  · exact ((c5_check_threshold
      (withConfig ⟨VerbosityConfig.default⟩ (some "warn".toList))
      VerbosityConfig.default (List.replicate 51 Level.warn)).2.2.2.2.2
        rfl).1 (by decide)

/-! ## Claim C7 -/

/-- C7: the governor's configured level comes from one substring scan of the
lowercased `RUST_LOG` value, testing `trace`, `debug`, `info`, `warn`,
`error` in that priority order and defaulting to INFO when the variable is
unset or matches none of them; `with_config` stores exactly this derivation
at initialization. -/
theorem c7_detect_priority (cfg : Config) (rl : Option (List Char))
    (s : List Char) :
    detectConfiguredLevel none = .info ∧
    (withConfig cfg rl).configured_level = detectConfiguredLevel rl ∧
    (containsStr (lowerStr s) "trace".toList = true →
      detectConfiguredLevel (some s) = .trace) ∧
    (containsStr (lowerStr s) "trace".toList = false →
     containsStr (lowerStr s) "debug".toList = true →
      detectConfiguredLevel (some s) = .debug) ∧
    (containsStr (lowerStr s) "trace".toList = false →
     containsStr (lowerStr s) "debug".toList = false →
     containsStr (lowerStr s) "info".toList = true →
      detectConfiguredLevel (some s) = .info) ∧
    (containsStr (lowerStr s) "trace".toList = false →
     containsStr (lowerStr s) "debug".toList = false →
     containsStr (lowerStr s) "info".toList = false →
     containsStr (lowerStr s) "warn".toList = true →
      detectConfiguredLevel (some s) = .warn) ∧
    (containsStr (lowerStr s) "trace".toList = false →
     containsStr (lowerStr s) "debug".toList = false →
     containsStr (lowerStr s) "info".toList = false →
     containsStr (lowerStr s) "warn".toList = false →
     containsStr (lowerStr s) "error".toList = true →
      detectConfiguredLevel (some s) = .error) ∧
    (containsStr (lowerStr s) "trace".toList = false →
     containsStr (lowerStr s) "debug".toList = false →
     containsStr (lowerStr s) "info".toList = false →
     containsStr (lowerStr s) "warn".toList = false →
     containsStr (lowerStr s) "error".toList = false →
      detectConfiguredLevel (some s) = .info) := by
  refine ⟨rfl, rfl, ?_, ?_, ?_, ?_, ?_, ?_⟩
  · intro h1
    show detectFromStr s = Level.trace
    unfold detectFromStr
    rw [h1]
    simp
  · intro h1 h2
    show detectFromStr s = Level.debug
    unfold detectFromStr
    rw [h1, h2]
    simp
  · intro h1 h2 h3
    show detectFromStr s = Level.info
    unfold detectFromStr
    rw [h1, h2, h3]
    simp
  · intro h1 h2 h3 h4
    show detectFromStr s = Level.warn
    unfold detectFromStr
    rw [h1, h2, h3, h4]
    simp
  · intro h1 h2 h3 h4 h5
    show detectFromStr s = Level.error
    unfold detectFromStr
    rw [h1, h2, h3, h4, h5]
    simp
  · intro h1 h2 h3 h4 h5
    show detectFromStr s = Level.info
    unfold detectFromStr
    rw [h1, h2, h3, h4, h5]
    simp

/-- C7, witness: `"WARN,tokio=debug"` contains both `warn` and `debug`
(after lowercasing) and the priority order picks DEBUG. -/
theorem c7_detect_priority_witness :
    detectConfiguredLevel (some "WARN,tokio=debug".toList) = .debug :=
  (c7_detect_priority ⟨VerbosityConfig.default⟩ none
    "WARN,tokio=debug".toList).2.2.2.1 (by decide) (by decide)

/-! ## Claim C8 -/

/-- C8: the formatter is a pure event-to-line function (no counter or
rotation state appears in its signature); the severity label — and with it
the whole prefix — is omitted exactly for INFO; DEBUG and TRACE get only the
label, never target or `file:line`, even when the metadata carries both;
ERROR and WARN get label, target and `file:line` (when both are present);
and spans are rendered from the root, `:`-separated, each name followed by
its fields in braces exactly when those fields are non-empty. -/
theorem c8_formatter (e : LogEvent) :
    (e.level = .info → formatEvent e = scopePart e ++ e.message ++ ['\n']) ∧
    (e.level = .debug ∨ e.level = .trace →
      formatEvent e = levelName e.level ++ ": ".toList ++ scopePart e
        ++ e.message ++ ['\n']) ∧
    (e.level = .error ∨ e.level = .warn →
      ∀ f n, e.file = some f → e.line = some n →
        formatEvent e = levelName e.level ++ ' ' :: e.target ++ ' ' :: f
          ++ ':' :: natDigits n ++ ": ".toList ++ scopePart e
          ++ e.message ++ ['\n']) ∧
    (∀ sp : SpanInfo, sp.fields = [] → renderSpan sp = sp.name) ∧
    (∀ sp : SpanInfo, sp.fields ≠ [] →
      renderSpan sp = sp.name ++ lbrace :: sp.fields ++ [rbrace]) ∧
    (∀ (sp : SpanInfo) (rest : List SpanInfo), rest ≠ [] →
      renderSpans (sp :: rest) = renderSpan sp ++ ':' :: renderSpans rest) ∧
    (∀ sp : SpanInfo, renderSpans [sp] = renderSpan sp) ∧
    (e.scope = none → scopePart e = []) ∧
    (∀ spans, e.scope = some spans → scopePart e = renderSpans spans ++ [' ']) := by
  refine ⟨?_, ?_, ?_, ?_, ?_, ?_, ?_, ?_, ?_⟩
  · intro h
    simp [formatEvent, levelHeader, h]
  · rintro (h | h) <;>
      simp [formatEvent, levelHeader, locationPart, h, List.append_assoc]
  · rintro (h | h) <;> intro f n hf hn <;>
      simp [formatEvent, levelHeader, locationPart, h, hf, hn, List.append_assoc]
  · intro sp h
    simp [renderSpan, h]
  · intro sp h
    cases hsp : sp.fields with
    | nil => exact absurd hsp h
    | cons c t => simp [renderSpan, hsp]
  · intro sp rest h
    cases rest with
    | nil => exact absurd rfl h
    | cons b t => rfl
  · intro sp
    rfl
  · intro h
    simp [scopePart, h]
  · intro spans h
    simp [scopePart, h]

/-- C8, witness: a concrete WARN event with source location renders the
label, target and `file:line`; a concrete INFO event renders with no prefix
at all. -/
theorem c8_formatter_witness :
    formatEvent evWarn
      = levelName .warn ++ ' ' :: evWarn.target ++ ' ' :: "f.rs".toList
        ++ ':' :: natDigits 31 ++ ": ".toList ++ scopePart evWarn
        ++ evWarn.message ++ ['\n'] ∧
    formatEvent evInfo = scopePart evInfo ++ evInfo.message ++ ['\n'] :=
  ⟨(c8_formatter evWarn).2.2.1 (Or.inr rfl) "f.rs".toList 31 rfl rfl,
   (c8_formatter evInfo).1 rfl⟩

/-! ## Claim C9 -/

theorem logPathOf_decomp (cfg : RotatingFileConfig) (ts : List Char) :
    logPathOf cfg ts
      = (cfg.log_directory ++ '/' :: trimEndLog cfg.filename ++ ['_'])
        ++ ts ++ ".log".toList := by
  simp [logPathOf, List.append_assoc]

/-- C9, counterexample: the active-file path is a pure function of the
configuration and the `%Y%m%d_%H%M%S` timestamp string, which has only
second granularity — two initializations that observe the same formatted
local time (two starts within the same second, or a repeated local-clock
reading) receive identical paths, so "for any two initializations, the
active file paths differ" does not hold; worse, the second open truncates,
clobbering the first run's file rather than never reusing it. -/
theorem c9_counterexample :
    ¬ (∀ ts1 ts2 : List Char,
        (newWriter RotatingFileConfig.default ts1).log_path
          ≠ (newWriter RotatingFileConfig.default ts2).log_path) :=
  fun h => h ts0 ts0 rfl

/-- C9, amended: initialization always opens the timestamped path fresh
(write+truncate: the active file starts empty with a zero byte counter, so a
prior run's file is never appended to), and two initializations produce
distinct active paths whenever their formatted timestamps differ — path
uniqueness holds exactly up to the second granularity of the timestamp. -/
theorem c9_unique_paths (cfg : RotatingFileConfig) (ts ts1 ts2 : List Char)
    (h : ts1 ≠ ts2) :
    (newWriter cfg ts1).log_path ≠ (newWriter cfg ts2).log_path ∧
    (newWriter cfg ts).active = [] ∧
    (newWriter cfg ts).current_size = 0 ∧
    (newWriter cfg ts).log_path = logPathOf cfg ts := by
  refine ⟨?_, rfl, rfl, rfl⟩
  intro heq
  apply h
  have h1 : logPathOf cfg ts1 = logPathOf cfg ts2 := heq
  rw [logPathOf_decomp, logPathOf_decomp] at h1
  have h2 := List.append_cancel_right h1
  exact List.append_cancel_left h2

/-- C9, witness for the amended theorem: two timestamps one second apart give
distinct paths. -/
theorem c9_unique_paths_witness :
    (newWriter RotatingFileConfig.default "20250101_120000".toList).log_path
      ≠ (newWriter RotatingFileConfig.default "20250101_120001".toList).log_path :=
  (c9_unique_paths RotatingFileConfig.default ts0 "20250101_120000".toList
    "20250101_120001".toList (by decide)).1

end Autodebugger
